import Mathlib

/-!
Verification development for the metrics-server query/resource layer and the
logcheck lint helpers shipped alongside it.

Part 1 embeds the two lint helpers from
src/vendor/sigs.k8s.io/logtools/logcheck/pkg/logcheck.go
(checkForFormatSpecifier, hasFormatSpecifier, isKeysValid) over a small model
of the Go AST fragments they inspect.

Part 2 models the node-metrics query layer (List, Get, ConvertToTable,
freshness instrumentation).  The implementation of that layer is not part of
the available sources; only its test file (src/unnamed/part_000) is.  Those
definitions are therefore modelled from the specification, and every choice
the specification leaves open is pinned by the expectations of the tests in
src/unnamed/part_000.
-/

set_option autoImplicit false

/-! ## Part 1: the logcheck lint helpers -/

/-- Kind of a Go basic literal token (token.STRING, token.INT, ...), as
distinguished by logcheck.go via comparisons with token.STRING. -/
inductive TokenKind where
  | stringTok
  | intTok
  | floatTok
  | charTok
  | imagTok
  deriving DecidableEq, Repr

/-- A Go ast.BasicLit: a literal token together with its source text. -/
structure BasicLit where
  kind : TokenKind
  value : String
  deriving DecidableEq, Repr

/-- An argument expression as far as the lint helpers inspect it: either a
basic literal or anything else (ast.Expr that is not an ast.BasicLit). -/
inductive AstExpr where
  | basicLit (lit : BasicLit)
  | otherExpr
  deriving DecidableEq, Repr

/-- The function position of a call expression: either a selector expression
(from which logcheck extracts the selected name, e.g. Infof) or some other
expression shape. -/
inductive FunExpr where
  | selector (fName : String)
  | otherFun
  deriving DecidableEq, Repr

/-- A Go ast.CallExpr, restricted to the parts the lint helpers read. -/
structure CallExpr where
  fn : FunExpr
  args : List AstExpr
  deriving DecidableEq, Repr

/-- Diagnostics reported by the embedded lint helpers, one constructor per
pass.Report call site in logcheck.go, carrying the data interpolated into the
corresponding message. -/
inductive Diagnostic where
  | formatSpecifierFound (fName : String) (specifier : String)
  | keyValuePairsOdd (funName : String)
  | keyNotLiteral
  | keyNotStringLiteral (value : String)
  | keyNotAscii (value : String)
  deriving DecidableEq, Repr

/-- Whether the pattern character list occurs at the head of the first list. -/
def startsWithChars : List Char → List Char → Bool
  | _, [] => true
  | [], _ :: _ => false
  | c :: cs, p :: ps => c == p && startsWithChars cs ps

/-- Whether the pattern character list occurs contiguously anywhere in the
first list. -/
def containsChars : List Char → List Char → Bool
  | [], pat => pat.isEmpty
  | c :: rest, pat => startsWithChars (c :: rest) pat || containsChars rest pat

/-- String containment, modelling Go strings.Contains: the second string is a
contiguous substring of the first. -/
def strContains (s pat : String) : Bool :=
  containsChars s.toList pat.toList

/-- Suffix test, modelling Go strings.HasSuffix: the second string is a
suffix of the first. -/
def strEndsWith (s suf : String) : Bool :=
  startsWithChars s.toList.reverse suf.toList.reverse

/-- The fixed format-specifier table of hasFormatSpecifier in logcheck.go,
in source order (the source lists %q twice; the duplicate is kept). -/
def formatSpecifierTable : List String :=
  ["%v", "%+v", "%#v", "%T",
   "%t", "%b", "%c", "%d", "%o", "%O", "%q", "%x", "%X", "%U",
   "%e", "%E", "%f", "%F", "%g", "%G", "%s", "%q", "%p"]

/-- hasFormatSpecifier from logcheck.go: scans the arguments in order and, for
the first basic literal whose text contains a table entry, returns the first
table entry (in table order) that its text contains. -/
def hasFormatSpecifier : List AstExpr → Option String
  | [] => none
  | AstExpr.basicLit lit :: rest =>
    match formatSpecifierTable.find? (fun sp => strContains lit.value sp) with
    | some sp => some sp
    | none => hasFormatSpecifier rest
  | AstExpr.otherExpr :: rest => hasFormatSpecifier rest

/-- checkForFormatSpecifier from logcheck.go: on a selector call whose
selected name does not end in the letter f, reports a diagnostic and returns
true when some argument is a basic literal containing a format specifier;
returns false and reports nothing in every other case.  The returned pair is
(return value, diagnostics reported). -/
def checkForFormatSpecifier (expr : CallExpr) : Bool × List Diagnostic :=
  match expr.fn with
  | FunExpr.selector fName =>
    if strEndsWith fName "f" then
      (false, [])
    else
      match hasFormatSpecifier expr.args with
      | some sp => (true, [Diagnostic.formatSpecifierFound fName sp])
      | none => (false, [])
  | FunExpr.otherFun => (false, [])

/-- ASCII test used by isKeysValid, modelling utf8string IsASCII: every rune
of the string is below 0x80. -/
def isAsciiString (s : String) : Bool :=
  s.toList.all (fun c => c.toNat < 128)

/-- The per-key check of the loop body in isKeysValid (logcheck.go): a key
argument must be a basic literal, of string kind, with ASCII text; the first
violated condition produces the corresponding diagnostic. -/
def keyArgCheck (arg : AstExpr) : Option Diagnostic :=
  match arg with
  | AstExpr.otherExpr => some Diagnostic.keyNotLiteral
  | AstExpr.basicLit lit =>
    if lit.kind ≠ TokenKind.stringTok then
      some (Diagnostic.keyNotStringLiteral lit.value)
    else if isAsciiString lit.value then
      none
    else
      some (Diagnostic.keyNotAscii lit.value)

/-- The index-carrying loop of isKeysValid: arguments at odd indices are
skipped, arguments at even indices are checked with keyArgCheck. -/
def isKeysValidAux : Nat → List AstExpr → List Diagnostic
  | _, [] => []
  | idx, arg :: rest =>
    (if idx % 2 ≠ 0 then [] else (keyArgCheck arg).toList) ++
      isKeysValidAux (idx + 1) rest

/-- isKeysValid from logcheck.go: an odd-length key/value list reports the
single pairs diagnostic and checks nothing else; an even-length list runs the
per-key check on every even-indexed argument.  Returns the diagnostics
reported. -/
def isKeysValid (keyValues : List AstExpr) (funName : String) : List Diagnostic :=
  if keyValues.length % 2 ≠ 0 then
    [Diagnostic.keyValuePairsOdd funName]
  else
    isKeysValidAux 0 keyValues

/-! ## Part 2: the node-metrics query/resource layer

The implementation of this layer is absent from the available sources; only
its tests are present (src/unnamed/part_000).  The definitions below are
modelled from the specification (sections 3, 4.3, 6, 7), with the choices the
specification leaves open pinned by the expectations of those tests. -/

/-- Modelled from the spec: a SampleWindow is the instant a measurement
period ended (in whole seconds, the granularity at which the tests drive the
clock and at which freshness is reported) and the duration it spanned (in
nanoseconds, the unit the tests use for Window values 1000/2000/3000 rendered
as 1µs/2µs/3µs). -/
structure SampleWindow where
  timestamp : Int
  window : Int
  deriving DecidableEq, Repr

/-- Modelled from the spec: a NodeMetric holds a node name, the labels copied
from the Node Registry at snapshot time, the sample window, and the
resource-kind to quantity mapping.  Quantities are kept in their canonical
unit-aware string rendering (quantity formatting itself is external to the
core), with the absent/zero quantity rendering as the string 0. -/
structure NodeMetric where
  name : String
  labels : List (String × String)
  sampleWindow : SampleWindow
  resources : List (String × String)
  deriving DecidableEq, Repr

/-- Modelled from the spec: a Snapshot is the ordered sequence of NodeMetric
entries produced by one scrape cycle, one entry per node that reported, so
entry names are pairwise distinct. -/
structure Snapshot where
  nodes : List NodeMetric
  nodupNames : (nodes.map NodeMetric.name).Nodup

/-- A node as the Node Registry exposes it: name and current labels. -/
structure RegNode where
  name : String
  labels : List (String × String)
  deriving DecidableEq, Repr

/-- The live Node Registry: an ordered sequence of nodes. -/
abbrev Registry := List RegNode

/-- Equality of Except values is decidable when both component types have
decidable equality. -/
instance {ε α : Type} [DecidableEq ε] [DecidableEq α] : DecidableEq (Except ε α) :=
  fun x y =>
    match x, y with
    | Except.ok a, Except.ok b =>
      if h : a = b then isTrue (by rw [h])
      else isFalse (by intro hc; injection hc with h2; exact h h2)
    | Except.error a, Except.error b =>
      if h : a = b then isTrue (by rw [h])
      else isFalse (by intro hc; injection hc with h2; exact h h2)
    | Except.ok _, Except.error _ => isFalse (by intro hc; exact Except.noConfusion hc)
    | Except.error _, Except.ok _ => isFalse (by intro hc; exact Except.noConfusion hc)

/-- First value bound to a key in an association list, if any. -/
def lookupAssoc (l : List (String × String)) (k : String) : Option String :=
  match l.find? (fun p => p.fst == k) with
  | some p => some p.snd
  | none => none

/-- Modelled from the spec: the labels the live registry currently holds for
a node name (empty when the registry does not know the name, matching the
test helper nodeLabels which yields an empty map for unknown names). -/
def liveLabels (reg : Registry) (name : String) : List (String × String) :=
  match reg.find? (fun n => n.name == name) with
  | some n => n.labels
  | none => []

/-- Modelled from the spec: a selector built from a set of equality
requirements (fields.SelectorFromSet / labels.SelectorFromSet in the tests);
it matches a target map when every required key is bound to the required
value. -/
def selectorMatches (reqs : List (String × String)) (target : List (String × String)) : Bool :=
  reqs.all (fun r => lookupAssoc target r.fst == some r.snd)

/-- Modelled from the spec: List options carry an optional field selector and
an optional label selector, each given as an equality-requirement set. -/
structure ListOptions where
  fieldSelector : Option (List (String × String))
  labelSelector : Option (List (String × String))

/-- Modelled from the spec: the labeled field set built for a snapshot entry,
binding metadata.name to the entry name and metadata.namespace to the empty
string (nodes are cluster-scoped). -/
def entryFieldSet (m : NodeMetric) : List (String × String) :=
  [("metadata.name", m.name), ("metadata.namespace", "")]

/-- Modelled from the spec: whether a snapshot entry satisfies the supplied
options.  A missing options value or a missing selector matches everything;
when both selectors are present they are conjoined.  The field selector is
evaluated against the entry field set, the label selector against the live
registry labels of the entry name. -/
def matchesOptions (reg : Registry) (opts : Option ListOptions) (m : NodeMetric) : Bool :=
  match opts with
  | none => true
  | some o =>
    (match o.fieldSelector with
     | none => true
     | some fs => selectorMatches fs (entryFieldSet m)) &&
    (match o.labelSelector with
     | none => true
     | some ls => selectorMatches ls (liveLabels reg m.name))

/-- Modelled from the spec: converting a stored entry to the served
representation resolves its labels from the live registry at query time
(the snapshot-frozen labels are discarded). -/
def resolveEntry (reg : Registry) (m : NodeMetric) : NodeMetric :=
  { m with labels := liveLabels reg m.name }

/-- Errors the query layer surfaces to callers: the typed not-found
condition, carrying resource kind and requested name. -/
inductive ApiError where
  | notFound (kind : String) (name : String)
  deriving DecidableEq, Repr

/-- Modelled from the spec: the List walk over the snapshot entries.  Each
entry that satisfies the options is served (labels resolved live) and its
freshness, now minus its sample timestamp, is recorded; the walk preserves
snapshot order.  Returns (served entries, freshness observations). -/
def nodeListAux (reg : Registry) (now : Int) (opts : Option ListOptions) :
    List NodeMetric → List NodeMetric × List Int
  | [] => ([], [])
  | m :: rest =>
    let tail := nodeListAux reg now opts rest
    if matchesOptions reg opts m then
      (resolveEntry reg m :: tail.fst, (now - m.sampleWindow.timestamp) :: tail.snd)
    else
      tail

/-- The entries List serves for the given registry, snapshot, clock value and
options. -/
def nodeListItems (reg : Registry) (snap : Snapshot) (now : Int)
    (opts : Option ListOptions) : List NodeMetric :=
  (nodeListAux reg now opts snap.nodes).fst

/-- The freshness observations List records for the given request. -/
def nodeListFreshness (reg : Registry) (snap : Snapshot) (now : Int)
    (opts : Option ListOptions) : List Int :=
  (nodeListAux reg now opts snap.nodes).snd

/-- Modelled from the spec: List returns the matching collection and a nil
error; an empty match is an empty collection, not an error (selector parsing,
the one caller-error source, happens before this layer and is not part of the
model). -/
def nodeList (reg : Registry) (snap : Snapshot) (now : Int)
    (opts : Option ListOptions) : Except ApiError (List NodeMetric) × List Int :=
  (Except.ok (nodeListItems reg snap now opts), nodeListFreshness reg snap now opts)

/-- Modelled from the spec: Get looks the name up in the current snapshot; a
hit is served with live labels and one freshness observation, a miss fails
with the NotFound condition carrying the resource kind (nodemetrics, as in
the tests) and the requested name, regardless of the registry contents. -/
def nodeGet (reg : Registry) (snap : Snapshot) (now : Int) (name : String) :
    Except ApiError NodeMetric × List Int :=
  match snap.nodes.find? (fun m => m.name == name) with
  | some m => (Except.ok (resolveEntry reg m), [now - m.sampleWindow.timestamp])
  | none => (Except.error (ApiError.notFound "nodemetrics" name), [])

/-! ### Freshness histogram -/

/-- Modelled from the spec: the freshness histogram bucket upper bounds, 20
exponential buckets starting at 1 with growth factor 1.364 (the bounds the
monitoring test expects), as exact rationals given by numerator/denominator
pairs: the k-th bound is 1364 to the k over 1000 to the k. -/
def freshnessBucketBounds : List (Nat × Nat) :=
  (List.range 20).map (fun k => (1364 ^ k, 1000 ^ k))

/-- Whether an observation (in whole seconds) is at or below a bucket bound
given as a numerator/denominator pair: x ≤ num/den iff x * den ≤ num. -/
def obsLeBound (x : Int) (b : Nat × Nat) : Bool :=
  x * (b.snd : Int) ≤ (b.fst : Int)

/-- Cumulative per-bucket counts of a list of observations: for each bucket
bound, the number of observations at or below it. -/
def histogramBucketCounts (obs : List Int) : List Nat :=
  freshnessBucketBounds.map (fun b => (obs.filter (fun x => obsLeBound x b)).length)

/-- Total observation count of the histogram. -/
def histogramCount (obs : List Int) : Nat :=
  obs.length

/-- Sum of all observations of the histogram. -/
def histogramSum (obs : List Int) : Int :=
  obs.sum

/-! ### Table conversion -/

/-- A rendered table: column names and rows of cell strings. -/
structure MetricsTable where
  columns : List String
  rows : List (List String)
  deriving DecidableEq, Repr

/-- Lexicographic order on character lists by code point. -/
def charListLe : List Char → List Char → Bool
  | [], _ => true
  | _ :: _, [] => false
  | a :: as, b :: bs =>
    if a.toNat < b.toNat then true
    else if a.toNat = b.toNat then charListLe as bs
    else false

/-- Lexicographic order on strings by code point (the order Go sorts resource
names with). -/
def strLe (s t : String) : Bool :=
  charListLe s.toList t.toList

/-- Insert a string into a sorted list of strings, keeping it sorted. -/
def insertSorted (s : String) : List String → List String
  | [] => [s]
  | t :: rest => if strLe s t then s :: t :: rest else t :: insertSorted s rest

/-- Sort a list of strings ascending (insertion sort). -/
def sortStrings : List String → List String
  | [] => []
  | s :: rest => insertSorted s (sortStrings rest)

/-- Modelled from the spec: the unit-aware string form of the quantity an
entry stores for a resource kind; a kind the entry does not carry renders as
the zero quantity, the string 0 (the tests expect cells res1 equal to 0 for
entries holding only res2 or res3). -/
def renderQuantity (m : NodeMetric) (kind : String) : String :=
  match lookupAssoc m.resources kind with
  | some v => v
  | none => "0"

/-- Modelled from the spec: the human-readable rendering of a duration given
in nanoseconds, for the whole-unit sub-second durations this development
uses (the tests render 1000ns as 1µs); whole-second durations render with the
unit s.  Rendering of an arbitrary duration is external to the core. -/
def formatDuration (ns : Int) : String :=
  if ns = 0 then "0s"
  else if ns % 1000 ≠ 0 then toString ns ++ "ns"
  else if ns % 1000000 ≠ 0 then toString (ns / 1000) ++ "µs"
  else if ns % 1000000000 ≠ 0 then toString (ns / 1000000) ++ "ms"
  else toString (ns / 1000000000) ++ "s"

/-- One table row for an entry, given the resource-kind columns: the entry
name first, then one quantity cell per resource column in column order, then
the rendered window last. -/
def tableRow (kinds : List String) (m : NodeMetric) : List String :=
  m.name :: (kinds.map (renderQuantity m) ++ [formatDuration m.sampleWindow.window])

/-- The step of the table-building loop: the first entry fixes the resource
columns (the sorted resource kinds of that entry) and the column header; every
entry appends its row. -/
def addToTableStep (st : Option (List String) × MetricsTable) (m : NodeMetric) :
    Option (List String) × MetricsTable :=
  match st with
  | (none, t) =>
    let kinds := sortStrings (m.resources.map Prod.fst)
    (some kinds,
      { columns := "Name" :: (kinds ++ ["Window"]),
        rows := t.rows ++ [tableRow kinds m] })
  | (some kinds, t) =>
    (some kinds, { t with rows := t.rows ++ [tableRow kinds m] })

/-- Modelled from the spec: ConvertToTable renders a List or Get result (its
sequence of entries) into tabular form.  The spec leaves the column-derivation
detail open between union-of-kinds and a fixed deterministic rule; the test
TestNodeList_ConvertToTable in src/unnamed/part_000 pins it: the resource
columns are the sorted resource kinds of the FIRST entry only (entries
carrying res1/res2/res3 yield the single resource column res1, later rows
rendering 0 there), Name first and Window last.  An empty result yields an
empty table. -/
def convertToTable (items : List NodeMetric) : MetricsTable :=
  (items.foldl addToTableStep (none, { columns := [], rows := [] })).snd

/-- Remove adjacent duplicates from a list of strings (on a sorted list this
removes all duplicates). -/
def dedupAdjacent : List String → List String
  | [] => []
  | s :: rest =>
    match rest with
    | [] => [s]
    | t :: _ =>
      if s = t then dedupAdjacent rest else s :: dedupAdjacent rest

/-- The column rule the specification text describes, for comparison with
convertToTable: one column per resource kind in the union of resource kinds
present across all input entries, sorted. -/
def specUnionResourceKinds (items : List NodeMetric) : List String :=
  dedupAdjacent (sortStrings (items.map (fun m => m.resources.map Prod.fst)).flatten)

/-! ### The test fixture of src/unnamed/part_000 -/

/-- nodeLabels from src/unnamed/part_000: the labels of each test node, empty
for any other name. -/
def nodeLabels (name : String) : List (String × String) :=
  if name = "node1" then [("labelKey", "labelValue")]
  else if name = "node2" then [("otherKey", "labelValue")]
  else if name = "node3" then [("labelKey", "otherValue")]
  else []

/-- createTestNodes from src/unnamed/part_000: the three registry nodes. -/
def createTestNodes : Registry :=
  [{ name := "node1", labels := nodeLabels "node1" },
   { name := "node2", labels := nodeLabels "node2" },
   { name := "node3", labels := nodeLabels "node3" }]

/-- The snapshot NewTestNodeStorage (src/unnamed/part_000) serves: per
registry node, in registry order, the fake TimeInfo (timestamp 0, the clock
start; windows 1000/2000/3000 ns) and the fake resource lists res1 10m,
res2 5Mi, res3 1, with labels frozen from the registry. -/
def testSnapshot : Snapshot where
  nodes :=
    [{ name := "node1", labels := nodeLabels "node1",
       sampleWindow := { timestamp := 0, window := 1000 },
       resources := [("res1", "10m")] },
     { name := "node2", labels := nodeLabels "node2",
       sampleWindow := { timestamp := 0, window := 2000 },
       resources := [("res2", "5Mi")] },
     { name := "node3", labels := nodeLabels "node3",
       sampleWindow := { timestamp := 0, window := 3000 },
       resources := [("res3", "1")] }]
  nodupNames := by decide

/-! ## Supporting lemmas -/

theorem nodeListAux_eq (reg : Registry) (now : Int) (opts : Option ListOptions) :
    ∀ l : List NodeMetric,
      nodeListAux reg now opts l =
        ((l.filter (matchesOptions reg opts)).map (resolveEntry reg),
         (l.filter (matchesOptions reg opts)).map
           (fun m => now - m.sampleWindow.timestamp)) := by
  intro l
  induction l with
  | nil => rfl
  | cons m rest ih =>
    cases h : matchesOptions reg opts m <;>
      simp [nodeListAux, List.filter_cons, h, ih]

theorem nodeListItems_eq (reg : Registry) (snap : Snapshot) (now : Int)
    (opts : Option ListOptions) :
    nodeListItems reg snap now opts =
      (snap.nodes.filter (matchesOptions reg opts)).map (resolveEntry reg) := by
  unfold nodeListItems
  rw [nodeListAux_eq]

theorem nodeListFreshness_eq (reg : Registry) (snap : Snapshot) (now : Int)
    (opts : Option ListOptions) :
    nodeListFreshness reg snap now opts =
      (snap.nodes.filter (matchesOptions reg opts)).map
        (fun m => now - m.sampleWindow.timestamp) := by
  unfold nodeListFreshness
  rw [nodeListAux_eq]

theorem resolveEntry_name (reg : Registry) (m : NodeMetric) :
    (resolveEntry reg m).name = m.name := rfl

theorem resolveEntry_labels (reg : Registry) (m : NodeMetric) :
    (resolveEntry reg m).labels = liveLabels reg m.name := rfl

theorem find_of_name_nodup (name : String) :
    ∀ l : List NodeMetric, (l.map NodeMetric.name).Nodup →
      ∀ m ∈ l, m.name = name → l.find? (fun x => x.name == name) = some m := by
  intro l
  induction l with
  | nil =>
    intro _ m hm
    cases hm
  | cons a rest ih =>
    intro hnd m hm hname
    have hnd2 := hnd
    rw [List.map_cons, List.nodup_cons] at hnd2
    rcases List.mem_cons.mp hm with hma | hmr
    · subst hma
      simp [List.find?_cons, hname]
    · have hanot : a.name ≠ name := by
        intro hcontra
        exact hnd2.1 (hcontra.trans hname.symm ▸ List.mem_map_of_mem NodeMetric.name hmr)
      rw [List.find?_cons]
      have : (a.name == name) = false := by
        simp [hanot]
      rw [this]
      exact ih hnd2.2 m hmr hname

theorem filter_name_eq_find (name : String) :
    ∀ l : List NodeMetric, (l.map NodeMetric.name).Nodup →
      l.filter (fun m => m.name == name) =
        (l.find? (fun m => m.name == name)).toList := by
  intro l
  induction l with
  | nil => intro _; rfl
  | cons a rest ih =>
    intro hnd
    have hnd2 := hnd
    rw [List.map_cons, List.nodup_cons] at hnd2
    cases ha : (a.name == name) with
    | true =>
      have haname : a.name = name := by
        exact eq_of_beq ha
      have hrest : rest.filter (fun m => m.name == name) = [] := by
        rw [List.filter_eq_nil_iff]
        intro m hmr hcontra
        have hmname : m.name = name := eq_of_beq hcontra
        exact hnd2.1 (haname.trans hmname.symm ▸ List.mem_map_of_mem NodeMetric.name hmr)
      simp [List.filter_cons, List.find?_cons, ha, hrest]
    | false =>
      simp [List.filter_cons, List.find?_cons, ha, ih hnd2.2]

theorem filtered_map_filter {α β : Type} (g : α → β) (A : α → Bool) (q : β → Bool) :
    ∀ l : List α,
      ((l.filter A).map g).filter q = (l.filter (fun a => A a && q (g a))).map g := by
  intro l
  induction l with
  | nil => rfl
  | cons a rest ih =>
    cases hA : A a <;> cases hq : q (g a) <;>
      simp [List.filter_cons, hA, hq, ih]

/-! ## Claim theorems -/

/-- Options carrying no selector at all. -/
def hasNoSelectors : Option ListOptions → Bool
  | none => true
  | some o => o.fieldSelector.isNone && o.labelSelector.isNone

/-- C1: for every stored snapshot, List with no selector options (nil options,
or options with neither a field nor a label selector) returns exactly the full
entry set of the snapshot, one item per node that reported, in snapshot
(registry) order, with no error; each served item is the snapshot entry with
its labels resolved from the live registry. -/
theorem nodeList_no_selector_returns_all (reg : Registry) (snap : Snapshot)
    (now : Int) (opts : Option ListOptions) (h : hasNoSelectors opts = true) :
    nodeList reg snap now opts =
      (Except.ok (snap.nodes.map (resolveEntry reg)),
       snap.nodes.map (fun m => now - m.sampleWindow.timestamp)) := by
  have hall : ∀ m ∈ snap.nodes, matchesOptions reg opts m = true := by
    intro m _
    cases opts with
    | none => rfl
    | some o =>
      simp only [hasNoSelectors, Bool.and_eq_true, Option.isNone_iff_eq_none] at h
      simp [matchesOptions, h.1, h.2]
  have hfilter : snap.nodes.filter (matchesOptions reg opts) = snap.nodes :=
    List.filter_eq_self.mpr hall
  unfold nodeList
  rw [nodeListItems_eq, nodeListFreshness_eq, hfilter]

/-- Witness for C1 at the test fixture with nil options and the clock at 10
seconds: the full three-entry snapshot is served in order. -/
theorem nodeList_no_selector_returns_all_witness :
    nodeList createTestNodes testSnapshot 10 none =
      (Except.ok testSnapshot.nodes, [10, 10, 10]) :=
  (nodeList_no_selector_returns_all createTestNodes testSnapshot 10 none
    (by decide)).trans (by decide)

/-- C3: for every registry (so independently of whether the name exists in
the Node Registry), Get on a name absent from the snapshot fails with the
NotFound error carrying the resource kind nodemetrics and the requested name,
while Get on a name present in the snapshot succeeds and returns that entry
(labels resolved live) together with its freshness observation. -/
theorem nodeGet_notFound_or_entry (reg : Registry) (snap : Snapshot)
    (now : Int) (name : String) :
    ((∀ m ∈ snap.nodes, m.name ≠ name) →
      nodeGet reg snap now name =
        (Except.error (ApiError.notFound "nodemetrics" name), [])) ∧
    (∀ m ∈ snap.nodes, m.name = name →
      nodeGet reg snap now name =
        (Except.ok (resolveEntry reg m), [now - m.sampleWindow.timestamp])) := by
  constructor
  · intro habs
    have hfind : snap.nodes.find? (fun m => m.name == name) = none := by
      rw [List.find?_eq_none]
      intro m hm
      simp [habs m hm]
    unfold nodeGet
    rw [hfind]
  · intro m hm hname
    have hfind := find_of_name_nodup name snap.nodes snap.nodupNames m hm hname
    unfold nodeGet
    rw [hfind]

/-- Witness for C3 at the test fixture: node4 is absent from the snapshot and
Get fails with NotFound both against the test registry (where node4 is also
unknown) and against a registry that does know node4; Get node1 succeeds. -/
theorem nodeGet_notFound_or_entry_witness :
    nodeGet createTestNodes testSnapshot 10 "node4" =
      (Except.error (ApiError.notFound "nodemetrics" "node4"), []) ∧
    nodeGet (createTestNodes ++ [{ name := "node4", labels := [] }])
        testSnapshot 10 "node4" =
      (Except.error (ApiError.notFound "nodemetrics" "node4"), []) ∧
    nodeGet createTestNodes testSnapshot 10 "node1" =
      (Except.ok { name := "node1", labels := [("labelKey", "labelValue")],
                   sampleWindow := { timestamp := 0, window := 1000 },
                   resources := [("res1", "10m")] }, [10]) :=
  ⟨(nodeGet_notFound_or_entry createTestNodes testSnapshot 10 "node4").1
      (by decide),
   (nodeGet_notFound_or_entry (createTestNodes ++ [{ name := "node4", labels := [] }])
      testSnapshot 10 "node4").1 (by decide),
   ((nodeGet_notFound_or_entry createTestNodes testSnapshot 10 "node1").2
      { name := "node1", labels := nodeLabels "node1",
        sampleWindow := { timestamp := 0, window := 1000 },
        resources := [("res1", "10m")] } (by decide) (by decide)).trans (by decide)⟩

/-- Options carrying exactly the field selector metadata.name = X. -/
def nameFieldOptions (X : String) : Option ListOptions :=
  some { fieldSelector := some [("metadata.name", X)], labelSelector := none }

theorem matchesOptions_nameField (reg : Registry) (X : String) (m : NodeMetric) :
    matchesOptions reg (nameFieldOptions X) m = (m.name == X) := by
  have h1 : lookupAssoc (entryFieldSet m) "metadata.name" = some m.name := rfl
  show (selectorMatches [("metadata.name", X)] (entryFieldSet m) && true) = (m.name == X)
  rw [Bool.and_true]
  unfold selectorMatches
  rw [List.all_cons, List.all_nil, Bool.and_true, h1]
  cases hx : m.name == X with
  | true => rw [eq_of_beq hx]; simp
  | false =>
    cases hs : (some m.name == some X) with
    | true =>
      have : m.name = X := by
        have := eq_of_beq hs
        injection this
      rw [this] at hx
      simp at hx
    | false => rfl

/-- C4: for every snapshot and every name X, List with the field selector
metadata.name = X returns at most one entry, and whenever Get(X) succeeds on
the same snapshot (X present), that List returns exactly the entry Get(X)
returned. -/
theorem nodeList_fieldName_agrees_with_get (reg : Registry) (snap : Snapshot)
    (now : Int) (X : String) :
    (nodeListItems reg snap now (nameFieldOptions X)).length ≤ 1 ∧
    (∀ e, (nodeGet reg snap now X).fst = Except.ok e →
      nodeListItems reg snap now (nameFieldOptions X) = [e]) := by
  have hitems : nodeListItems reg snap now (nameFieldOptions X) =
      ((snap.nodes.find? (fun m => m.name == X)).toList).map (resolveEntry reg) := by
    rw [nodeListItems_eq]
    rw [List.filter_congr (fun m _ => matchesOptions_nameField reg X m)]
    rw [filter_name_eq_find X snap.nodes snap.nodupNames]
  constructor
  · rw [hitems]
    cases hfind : snap.nodes.find? (fun m => m.name == X) <;> simp [hfind]
  · intro e he
    cases hfind : snap.nodes.find? (fun m => m.name == X) with
    | none =>
      have hg : (nodeGet reg snap now X).fst =
          Except.error (ApiError.notFound "nodemetrics" X) := by
        unfold nodeGet
        rw [hfind]
      rw [hg] at he
      exact absurd he (by simp)
    | some m =>
      have hg : (nodeGet reg snap now X).fst = Except.ok (resolveEntry reg m) := by
        unfold nodeGet
        rw [hfind]
      rw [hg] at he
      have hme : resolveEntry reg m = e := by
        injection he
      rw [hitems, hfind, Option.toList_some, List.map_singleton, hme]

/-- Witness for C4 at the test fixture: selecting metadata.name = node2 lists
exactly the entry Get node2 returns; selecting the absent node4 lists at most
one (zero) entries. -/
theorem nodeList_fieldName_agrees_with_get_witness :
    nodeListItems createTestNodes testSnapshot 10 (nameFieldOptions "node2") =
      [{ name := "node2", labels := [("otherKey", "labelValue")],
         sampleWindow := { timestamp := 0, window := 2000 },
         resources := [("res2", "5Mi")] }] ∧
    (nodeListItems createTestNodes testSnapshot 10 (nameFieldOptions "node4")).length ≤ 1 :=
  ⟨(nodeList_fieldName_agrees_with_get createTestNodes testSnapshot 10 "node2").2
      { name := "node2", labels := [("otherKey", "labelValue")],
        sampleWindow := { timestamp := 0, window := 2000 },
        resources := [("res2", "5Mi")] } (by decide),
   (nodeList_fieldName_agrees_with_get createTestNodes testSnapshot 10 "node4").1⟩

/-- Options carrying both a field and a label selector. -/
def bothOptions (f l : List (String × String)) : Option ListOptions :=
  some { fieldSelector := some f, labelSelector := some l }

/-- Options carrying only a field selector. -/
def fieldOnlyOptions (f : List (String × String)) : Option ListOptions :=
  some { fieldSelector := some f, labelSelector := none }

/-- Options carrying only a label selector. -/
def labelOnlyOptions (l : List (String × String)) : Option ListOptions :=
  some { fieldSelector := none, labelSelector := some l }

/-- C5: when both a field and a label selector are supplied, List returns
exactly the snapshot entries satisfying both predicates -- which is the
intersection of the two individual List results (both as a filter of the
field-only result and as a membership equivalence) -- and an absent selector
imposes no constraint: each single-selector List filters by that selector
alone. -/
theorem nodeList_selectors_conjoin (reg : Registry) (snap : Snapshot) (now : Int)
    (f l : List (String × String)) :
    (nodeListItems reg snap now (bothOptions f l) =
      (snap.nodes.filter (fun m =>
        selectorMatches f (entryFieldSet m) &&
        selectorMatches l (liveLabels reg m.name))).map (resolveEntry reg)) ∧
    (nodeListItems reg snap now (fieldOnlyOptions f) =
      (snap.nodes.filter (fun m =>
        selectorMatches f (entryFieldSet m))).map (resolveEntry reg)) ∧
    (nodeListItems reg snap now (labelOnlyOptions l) =
      (snap.nodes.filter (fun m =>
        selectorMatches l (liveLabels reg m.name))).map (resolveEntry reg)) ∧
    (nodeListItems reg snap now (bothOptions f l) =
      (nodeListItems reg snap now (fieldOnlyOptions f)).filter
        (fun e => selectorMatches l e.labels)) ∧
    (∀ e, e ∈ nodeListItems reg snap now (bothOptions f l) ↔
      (e ∈ nodeListItems reg snap now (fieldOnlyOptions f) ∧
       e ∈ nodeListItems reg snap now (labelOnlyOptions l))) := by
  have hboth : nodeListItems reg snap now (bothOptions f l) =
      (snap.nodes.filter (fun m =>
        selectorMatches f (entryFieldSet m) &&
        selectorMatches l (liveLabels reg m.name))).map (resolveEntry reg) :=
    nodeListItems_eq reg snap now (bothOptions f l)
  have hfield : nodeListItems reg snap now (fieldOnlyOptions f) =
      (snap.nodes.filter (fun m =>
        selectorMatches f (entryFieldSet m))).map (resolveEntry reg) := by
    rw [nodeListItems_eq]
    rw [List.filter_congr (fun m _ => by
      show matchesOptions reg (fieldOnlyOptions f) m = selectorMatches f (entryFieldSet m)
      exact Bool.and_true _)]
  have hlabel : nodeListItems reg snap now (labelOnlyOptions l) =
      (snap.nodes.filter (fun m =>
        selectorMatches l (liveLabels reg m.name))).map (resolveEntry reg) :=
    nodeListItems_eq reg snap now (labelOnlyOptions l)
  refine ⟨hboth, hfield, hlabel, ?_, ?_⟩
  · rw [hboth, hfield,
      filtered_map_filter (resolveEntry reg)
        (fun m => selectorMatches f (entryFieldSet m))
        (fun e => selectorMatches l e.labels)]
    rfl
  · intro e
    constructor
    · intro he
      rw [hboth] at he
      obtain ⟨m, hm, rfl⟩ := List.mem_map.mp he
      have hmf := List.mem_filter.mp hm
      have hconj := Bool.and_eq_true_iff.mp hmf.2
      constructor
      · rw [hfield]
        exact List.mem_map.mpr ⟨m, List.mem_filter.mpr ⟨hmf.1, hconj.1⟩, rfl⟩
      · rw [hlabel]
        exact List.mem_map.mpr ⟨m, List.mem_filter.mpr ⟨hmf.1, hconj.2⟩, rfl⟩
    · intro ⟨hef, hel⟩
      rw [hfield] at hef
      rw [hlabel] at hel
      obtain ⟨m1, hm1, he1⟩ := List.mem_map.mp hef
      obtain ⟨m2, hm2, he2⟩ := List.mem_map.mp hel
      have hm1f := List.mem_filter.mp hm1
      have hm2f := List.mem_filter.mp hm2
      have hnames : m1.name = m2.name := by
        have : (resolveEntry reg m1).name = (resolveEntry reg m2).name := by
          rw [he1, he2]
        exact this
      have hm12 : m1 = m2 :=
        List.inj_on_of_nodup_map snap.nodupNames hm1f.1 hm2f.1 hnames
      rw [hboth]
      refine List.mem_map.mpr ⟨m1, List.mem_filter.mpr ⟨hm1f.1, ?_⟩, he1⟩
      rw [Bool.and_eq_true_iff]
      exact ⟨hm1f.2, hm12 ▸ hm2f.2⟩

/-- C7: for every snapshot and selector options that no entry satisfies, List
returns the empty collection and no error value (and records no freshness
observation). -/
theorem nodeList_unmatched_returns_empty (reg : Registry) (snap : Snapshot)
    (now : Int) (opts : Option ListOptions)
    (h : ∀ m ∈ snap.nodes, matchesOptions reg opts m = false) :
    nodeList reg snap now opts = (Except.ok [], []) := by
  have hnil : snap.nodes.filter (matchesOptions reg opts) = [] := by
    rw [List.filter_eq_nil_iff]
    intro m hm
    simp [h m hm]
  unfold nodeList
  rw [nodeListItems_eq, nodeListFreshness_eq, hnil]
  rfl

/-- Witness for C7 at the test fixture: the field selector metadata.name =
node4 matches no snapshot entry and List returns the empty collection with no
error. -/
theorem nodeList_unmatched_returns_empty_witness :
    nodeList createTestNodes testSnapshot 10 (nameFieldOptions "node4") =
      (Except.ok [], []) :=
  nodeList_unmatched_returns_empty createTestNodes testSnapshot 10
    (nameFieldOptions "node4") (by decide)

/-- C8: every entry served by List or Get carries the labels the live
registry currently holds for that node name, not the labels frozen into the
snapshot entry; the registry is universally quantified here, independently of
the snapshot contents. -/
theorem served_labels_from_live_registry (reg : Registry) (snap : Snapshot)
    (now : Int) (opts : Option ListOptions) (name : String) (e : NodeMetric) :
    (e ∈ nodeListItems reg snap now opts → e.labels = liveLabels reg e.name) ∧
    ((nodeGet reg snap now name).fst = Except.ok e →
      e.labels = liveLabels reg e.name) := by
  constructor
  · intro he
    rw [nodeListItems_eq] at he
    obtain ⟨m, _, rfl⟩ := List.mem_map.mp he
    rfl
  · intro he
    cases hfind : snap.nodes.find? (fun m => m.name == name) with
    | none =>
      have hg : (nodeGet reg snap now name).fst =
          Except.error (ApiError.notFound "nodemetrics" name) := by
        unfold nodeGet
        rw [hfind]
      rw [hg] at he
      exact absurd he (by simp)
    | some m =>
      have hg : (nodeGet reg snap now name).fst = Except.ok (resolveEntry reg m) := by
        unfold nodeGet
        rw [hfind]
      rw [hg] at he
      have hme : resolveEntry reg m = e := by
        injection he
      rw [← hme]
      rfl

/-- Witness for C8: against a registry in which node1 has been relabeled to
labelKey = newValue since the snapshot froze labelKey = labelValue, Get node1
serves the updated registry labels. -/
theorem served_labels_from_live_registry_witness :
    ({ name := "node1", labels := [("labelKey", "newValue")],
       sampleWindow := { timestamp := 0, window := 1000 },
       resources := [("res1", "10m")] } : NodeMetric).labels =
      liveLabels
        [{ name := "node1", labels := [("labelKey", "newValue")] },
         { name := "node2", labels := nodeLabels "node2" },
         { name := "node3", labels := nodeLabels "node3" }] "node1" :=
  (served_labels_from_live_registry
    [{ name := "node1", labels := [("labelKey", "newValue")] },
     { name := "node2", labels := nodeLabels "node2" },
     { name := "node3", labels := nodeLabels "node3" }]
    testSnapshot 10 none "node1"
    { name := "node1", labels := [("labelKey", "newValue")],
      sampleWindow := { timestamp := 0, window := 1000 },
      resources := [("res1", "10m")] }).2 (by decide)

/-- C6: on every successful List, the freshness observations recorded are
exactly one per returned entry, each equal to now minus that entry's sample
timestamp; at the monitoring-test fixture (three entries with timestamp 0
served at clock 10) the histogram holds count 3, sum 30, and all mass sits
from the first bucket whose upper bound is at least 10 (the 9th bound,
8 bounds lying below 10) onward. -/
theorem freshness_histogram_records_ages :
    (∀ (reg : Registry) (snap : Snapshot) (now : Int) (opts : Option ListOptions),
      nodeListFreshness reg snap now opts =
        (nodeListItems reg snap now opts).map
          (fun e => now - e.sampleWindow.timestamp)) ∧
    nodeListFreshness createTestNodes testSnapshot 10 none = [10, 10, 10] ∧
    histogramBucketCounts (nodeListFreshness createTestNodes testSnapshot 10 none) =
      [0, 0, 0, 0, 0, 0, 0, 0, 3, 3, 3, 3, 3, 3, 3, 3, 3, 3, 3, 3] ∧
    histogramCount (nodeListFreshness createTestNodes testSnapshot 10 none) = 3 ∧
    histogramSum (nodeListFreshness createTestNodes testSnapshot 10 none) = 30 ∧
    (freshnessBucketBounds.filter (fun b => !obsLeBound 10 b)).length = 8 := by
  refine ⟨?_, by decide, by decide, by decide, by decide, by decide⟩
  intro reg snap now opts
  rw [nodeListFreshness_eq, nodeListItems_eq, List.map_map]
  rfl

theorem foldl_addToTableStep_some (kinds : List String) :
    ∀ (items : List NodeMetric) (t : MetricsTable),
      (items.foldl addToTableStep (some kinds, t)).snd =
        { columns := t.columns, rows := t.rows ++ items.map (tableRow kinds) } := by
  intro items
  induction items with
  | nil =>
    intro t
    simp
  | cons m rest ih =>
    intro t
    rw [List.foldl_cons]
    show (rest.foldl addToTableStep
      (some kinds, { t with rows := t.rows ++ [tableRow kinds m] })).snd = _
    rw [ih]
    simp

/-- C2 counterexample: at the fixture List result of
TestNodeList_ConvertToTable (entries carrying the resource kinds res1, res2
and res3 respectively), the table columns are Name, res1, Window -- not Name
followed by the union of resource kinds across all entries followed by
Window -- and the rows render the missing kinds as 0, exactly as the test
expects. -/
theorem convertToTable_columns_not_union :
    (convertToTable (nodeListItems createTestNodes testSnapshot 10 none)).columns =
      ["Name", "res1", "Window"] ∧
    specUnionResourceKinds (nodeListItems createTestNodes testSnapshot 10 none) =
      ["res1", "res2", "res3"] ∧
    (convertToTable (nodeListItems createTestNodes testSnapshot 10 none)).columns ≠
      "Name" ::
        (specUnionResourceKinds (nodeListItems createTestNodes testSnapshot 10 none) ++
          ["Window"]) ∧
    (convertToTable (nodeListItems createTestNodes testSnapshot 10 none)).rows =
      [["node1", "10m", "1µs"], ["node2", "0", "2µs"], ["node3", "0", "3µs"]] := by
  decide

/-- C2 as amended: for every nonempty List or Get result, the table's columns
are Name, then one column per resource kind present in the FIRST entry, in
sorted order, then Window last; each row follows that column order, a kind
the row's entry does not carry rendering as the zero quantity 0, and the
Window cell being the human-readable rendering of the stored duration (see
tableRow); an empty result yields an empty table. -/
theorem convertToTable_first_entry_columns (items : List NodeMetric)
    (m : NodeMetric) (rest : List NodeMetric) (h : items = m :: rest) :
    (convertToTable items).columns =
      "Name" :: (sortStrings (m.resources.map Prod.fst) ++ ["Window"]) ∧
    (convertToTable items).rows =
      items.map (tableRow (sortStrings (m.resources.map Prod.fst))) ∧
    convertToTable [] = { columns := [], rows := [] } := by
  subst h
  have hstep : addToTableStep (none, { columns := [], rows := [] }) m =
      (some (sortStrings (m.resources.map Prod.fst)),
       { columns := "Name" :: (sortStrings (m.resources.map Prod.fst) ++ ["Window"]),
         rows := [tableRow (sortStrings (m.resources.map Prod.fst)) m] }) := rfl
  unfold convertToTable
  rw [List.foldl_cons, hstep, foldl_addToTableStep_some]
  refine ⟨rfl, ?_, rfl⟩
  simp

/-- Witness for the amended C2 at the fixture: the concrete columns and rows
of the table the conversion test builds. -/
theorem convertToTable_first_entry_columns_witness :
    (convertToTable (nodeListItems createTestNodes testSnapshot 10 none)).columns =
      ["Name", "res1", "Window"] ∧
    (convertToTable (nodeListItems createTestNodes testSnapshot 10 none)).rows =
      [["node1", "10m", "1µs"], ["node2", "0", "2µs"], ["node3", "0", "3µs"]] :=
  ⟨((convertToTable_first_entry_columns
      (nodeListItems createTestNodes testSnapshot 10 none)
      { name := "node1", labels := [("labelKey", "labelValue")],
        sampleWindow := { timestamp := 0, window := 1000 },
        resources := [("res1", "10m")] }
      [{ name := "node2", labels := [("otherKey", "labelValue")],
         sampleWindow := { timestamp := 0, window := 2000 },
         resources := [("res2", "5Mi")] },
       { name := "node3", labels := [("labelKey", "otherValue")],
         sampleWindow := { timestamp := 0, window := 3000 },
         resources := [("res3", "1")] }] (by decide)).1).trans (by decide),
   ((convertToTable_first_entry_columns
      (nodeListItems createTestNodes testSnapshot 10 none)
      { name := "node1", labels := [("labelKey", "labelValue")],
        sampleWindow := { timestamp := 0, window := 1000 },
        resources := [("res1", "10m")] }
      [{ name := "node2", labels := [("otherKey", "labelValue")],
         sampleWindow := { timestamp := 0, window := 2000 },
         resources := [("res2", "5Mi")] },
       { name := "node3", labels := [("labelKey", "otherValue")],
         sampleWindow := { timestamp := 0, window := 3000 },
         resources := [("res3", "1")] }] (by decide)).2.1).trans (by decide)⟩

theorem hasFormatSpecifier_some_iff :
    ∀ args : List AstExpr, (hasFormatSpecifier args).isSome = true ↔
      ∃ lit : BasicLit, AstExpr.basicLit lit ∈ args ∧
        ∃ sp ∈ formatSpecifierTable, strContains lit.value sp = true := by
  intro args
  induction args with
  | nil =>
    simp [hasFormatSpecifier]
  | cons a rest ih =>
    cases a with
    | otherExpr =>
      show (hasFormatSpecifier rest).isSome = true ↔ _
      rw [ih]
      constructor
      · rintro ⟨lit, hmem, hsp⟩
        exact ⟨lit, List.mem_cons_of_mem _ hmem, hsp⟩
      · rintro ⟨lit, hmem, hsp⟩
        rcases List.mem_cons.mp hmem with h | h
        · cases h
        · exact ⟨lit, h, hsp⟩
    | basicLit lit =>
      show (match formatSpecifierTable.find? (fun sp => strContains lit.value sp) with
        | some sp => some sp
        | none => hasFormatSpecifier rest).isSome = true ↔ _
      cases hfind : formatSpecifierTable.find? (fun sp => strContains lit.value sp) with
      | some sp =>
        simp only [Option.isSome_some, true_iff]
        exact ⟨lit, List.mem_cons_self _ _,
          sp, List.mem_of_find?_eq_some hfind, List.find?_some hfind⟩
      | none =>
        rw [ih]
        constructor
        · rintro ⟨l2, hmem, hsp⟩
          exact ⟨l2, List.mem_cons_of_mem _ hmem, hsp⟩
        · rintro ⟨l2, hmem, sp, hsp, hcont⟩
          rcases List.mem_cons.mp hmem with h | h
          · have hl : l2 = lit := by injection h
            subst hl
            have := List.find?_eq_none.mp hfind sp hsp
            rw [hcont] at this
            cases this rfl
          · exact ⟨l2, h, sp, hsp, hcont⟩

/-- C9: for every logging call expression whose function position is a
selector, checkForFormatSpecifier returns false and emits no diagnostic
whenever the selected name ends with the letter f; otherwise it emits one
diagnostic and returns true exactly when some argument is a basic literal
containing one of the fixed format specifiers, and emits nothing when it
returns false. -/
theorem checkForFormatSpecifier_spec (fName : String) (args : List AstExpr) :
    (strEndsWith fName "f" = true →
      checkForFormatSpecifier { fn := FunExpr.selector fName, args := args } =
        (false, [])) ∧
    (strEndsWith fName "f" = false →
      (((checkForFormatSpecifier { fn := FunExpr.selector fName, args := args }).fst = true ∧
        (checkForFormatSpecifier { fn := FunExpr.selector fName, args := args }).snd ≠ []) ↔
        ∃ lit : BasicLit, AstExpr.basicLit lit ∈ args ∧
          ∃ sp ∈ formatSpecifierTable, strContains lit.value sp = true)) ∧
    (strEndsWith fName "f" = false →
      (checkForFormatSpecifier { fn := FunExpr.selector fName, args := args }).fst = false →
      (checkForFormatSpecifier { fn := FunExpr.selector fName, args := args }).snd = []) := by
  refine ⟨?_, ?_, ?_⟩
  · intro h
    simp [checkForFormatSpecifier, h]
  · intro h
    rw [← hasFormatSpecifier_some_iff args]
    cases hf : hasFormatSpecifier args with
    | some sp =>
      have hc : checkForFormatSpecifier { fn := FunExpr.selector fName, args := args } =
          (true, [Diagnostic.formatSpecifierFound fName sp]) := by
        simp [checkForFormatSpecifier, h, hf]
      rw [hc]
      simp
    | none =>
      have hc : checkForFormatSpecifier { fn := FunExpr.selector fName, args := args } =
          (false, []) := by
        simp [checkForFormatSpecifier, h, hf]
      rw [hc]
      simp
  · intro h hfst
    cases hf : hasFormatSpecifier args with
    | some sp =>
      have hc : (checkForFormatSpecifier { fn := FunExpr.selector fName, args := args }).fst =
          true := by
        simp [checkForFormatSpecifier, h, hf]
      rw [hc] at hfst
      cases hfst
    | none =>
      simp [checkForFormatSpecifier, h, hf]

/-- Witness for C9: the f-suffixed call Infof with a %v literal passes; the
call Info with a %v literal is flagged (returns true with one diagnostic);
the call Info with a specifier-free literal returns false and is silent. -/
theorem checkForFormatSpecifier_spec_witness :
    checkForFormatSpecifier
      { fn := FunExpr.selector "Infof",
        args := [AstExpr.basicLit { kind := TokenKind.stringTok, value := "a %v b" }] } =
      (false, []) ∧
    ((checkForFormatSpecifier
      { fn := FunExpr.selector "Info",
        args := [AstExpr.basicLit { kind := TokenKind.stringTok, value := "a %v b" }] }).fst =
      true ∧
     (checkForFormatSpecifier
      { fn := FunExpr.selector "Info",
        args := [AstExpr.basicLit { kind := TokenKind.stringTok, value := "a %v b" }] }).snd ≠
      []) ∧
    (checkForFormatSpecifier
      { fn := FunExpr.selector "Info",
        args := [AstExpr.basicLit { kind := TokenKind.stringTok, value := "plain" }] }).snd =
      [] :=
  ⟨(checkForFormatSpecifier_spec "Infof"
      [AstExpr.basicLit { kind := TokenKind.stringTok, value := "a %v b" }]).1 (by decide),
   ((checkForFormatSpecifier_spec "Info"
      [AstExpr.basicLit { kind := TokenKind.stringTok, value := "a %v b" }]).2.1
      (by decide)).mpr
     ⟨{ kind := TokenKind.stringTok, value := "a %v b" }, by decide, "%v", by decide, by decide⟩,
   (checkForFormatSpecifier_spec "Info"
      [AstExpr.basicLit { kind := TokenKind.stringTok, value := "plain" }]).2.2
      (by decide) (by decide)⟩

theorem isKeysValidAux_enumFrom :
    ∀ (args : List AstExpr) (idx : Nat),
      isKeysValidAux idx args =
        (List.enumFrom idx args).filterMap
          (fun p => if p.fst % 2 = 0 then keyArgCheck p.snd else none) := by
  intro args
  induction args with
  | nil => intro idx; rfl
  | cons a rest ih =>
    intro idx
    show (if idx % 2 ≠ 0 then [] else (keyArgCheck a).toList) ++ isKeysValidAux (idx + 1) rest = _
    rw [List.enumFrom_cons, List.filterMap_cons, ih (idx + 1)]
    by_cases h : idx % 2 = 0
    · cases hk : keyArgCheck a <;> simp [h, hk]
    · simp [h]

/-- C10: an odd-length key/value argument list makes isKeysValid report
exactly the single pairs diagnostic and run no per-argument key check; an
even-length list makes it report exactly the per-key diagnostics of the
even-indexed (key-position) arguments, so odd-indexed (value-position)
arguments never trigger one; and the per-key check passes (no diagnostic)
precisely for ASCII string basic literals. -/
theorem isKeysValid_spec (keyValues : List AstExpr) (funName : String) :
    (keyValues.length % 2 = 1 →
      isKeysValid keyValues funName = [Diagnostic.keyValuePairsOdd funName]) ∧
    (keyValues.length % 2 = 0 →
      isKeysValid keyValues funName =
        (List.enumFrom 0 keyValues).filterMap
          (fun p => if p.fst % 2 = 0 then keyArgCheck p.snd else none)) ∧
    (∀ arg : AstExpr, keyArgCheck arg = none ↔
      ∃ lit : BasicLit, arg = AstExpr.basicLit lit ∧
        lit.kind = TokenKind.stringTok ∧ isAsciiString lit.value = true) := by
  refine ⟨?_, ?_, ?_⟩
  · intro h
    unfold isKeysValid
    rw [if_pos (by omega)]
  · intro h
    unfold isKeysValid
    rw [if_neg (by omega)]
    exact isKeysValidAux_enumFrom keyValues 0
  · intro arg
    cases arg with
    | otherExpr => simp [keyArgCheck]
    | basicLit lit =>
      show (if lit.kind ≠ TokenKind.stringTok then some (Diagnostic.keyNotStringLiteral lit.value)
        else if isAsciiString lit.value then none
        else some (Diagnostic.keyNotAscii lit.value)) = none ↔ _
      by_cases hk : lit.kind = TokenKind.stringTok
      · by_cases ha : isAsciiString lit.value = true
        · simp only [hk, ha]
          simp
          exact ⟨hk, ha⟩
        · simp only [hk]
          simp [ha, Bool.not_eq_true _ ▸ ha]
      · simp [hk]

/-- Witness for C10: a three-argument list yields only the pairs diagnostic;
a two-argument list with a clean string-literal key and a non-literal value
yields no diagnostic (the value position is never checked); the key check
accepts an ASCII string literal. -/
theorem isKeysValid_spec_witness :
    isKeysValid
      [AstExpr.basicLit { kind := TokenKind.stringTok, value := "k" },
       AstExpr.otherExpr, AstExpr.otherExpr] "WithValues" =
      [Diagnostic.keyValuePairsOdd "WithValues"] ∧
    isKeysValid
      [AstExpr.basicLit { kind := TokenKind.stringTok, value := "k" },
       AstExpr.otherExpr] "WithValues" = [] ∧
    keyArgCheck (AstExpr.basicLit { kind := TokenKind.stringTok, value := "k" }) = none :=
  ⟨(isKeysValid_spec
      [AstExpr.basicLit { kind := TokenKind.stringTok, value := "k" },
       AstExpr.otherExpr, AstExpr.otherExpr] "WithValues").1 (by decide),
   ((isKeysValid_spec
      [AstExpr.basicLit { kind := TokenKind.stringTok, value := "k" },
       AstExpr.otherExpr] "WithValues").2.1 (by decide)).trans (by decide),
   ((isKeysValid_spec [] "WithValues").2.2
      (AstExpr.basicLit { kind := TokenKind.stringTok, value := "k" })).mpr
     ⟨{ kind := TokenKind.stringTok, value := "k" }, rfl, rfl, by decide⟩⟩
